import Mathlib

/-
  Verification of the notification deduplication and delivery engine of the
  chslakernation repository (server/storage.ts, server/sync-service.ts,
  server/firebase-admin.ts, shared/schema.ts).

  Timestamps are modelled as integers (milliseconds since the epoch), matching
  JavaScript Date.getTime().  The local-time day structure used by
  date-fns isSameDay and by Date.setHours is modelled with day boundaries at
  multiples of 86400000 ms; a fixed UTC offset would shift every timestamp by
  the same constant and changes none of the statements below.
-/

namespace ChsLakers

/-- The three persisted states of a sent_notifications row
    (shared/schema.ts:150: "pending", "sending", or "sent"). -/
inductive NStatus where
  | pending
  | sending
  | sent
deriving DecidableEq, Repr

/-- A sent_notifications row for one (gameId, subscriptionId, notificationType)
    key (shared/schema.ts:145-155).  createdAt is NOT NULL with DEFAULT now()
    in the schema, so it is modelled as always present. -/
structure NRec where
  status : NStatus
  createdAt : Int
  sentAt : Option Int
deriving DecidableEq, Repr

/-- The staleness threshold: 5 minutes in milliseconds (storage.ts:613,638:
    `new Date(Date.now() - 5 * 60 * 1000)`). -/
def staleMs : Int := 5 * 60 * 1000

/-- The conditional update of storage.ts:617-626: UPDATE ... SET status='pending',
    created_at=now WHERE id = record.id AND status='sending' AND created_at < now-5min.
    It acts on the row as it is at update time (`cur`), which under concurrency can
    differ from the row the caller previously read.  Returns (affected, new row). -/
def condReclaimSending (now : Int) (cur : Option NRec) : Bool × Option NRec :=
  match cur with
  | some r =>
    if r.status = NStatus.sending ∧ r.createdAt < now - staleMs then
      (true, some { status := NStatus.pending, createdAt := now, sentAt := r.sentAt })
    else
      (false, some r)
  | none => (false, none)

/-- The conditional update of storage.ts:642-651: UPDATE ... SET created_at=now
    WHERE id = record.id AND status='pending' AND created_at < now-5min. -/
def condReclaimPending (now : Int) (cur : Option NRec) : Bool × Option NRec :=
  match cur with
  | some r =>
    if r.status = NStatus.pending ∧ r.createdAt < now - staleMs then
      (true, some { r with createdAt := now })
    else
      (false, some r)
  | none => (false, none)

/-- The unique-violation branch of tryRecordNotificationAtomically
    (storage.ts:601-664): `readRec` is the row returned by the SELECT; the
    conditional updates are applied to the row as it is at update time (`cur`).
    Returns (claimed, resulting row). -/
def tryClaimExisting (now : Int) (readRec : NRec) (cur : Option NRec) :
    Bool × Option NRec :=
  if readRec.status = NStatus.sent then
    (false, cur)
  else if readRec.status = NStatus.sending then
    if readRec.createdAt < now - staleMs then
      condReclaimSending now cur
    else
      (false, cur)
  else
    if readRec.createdAt < now - staleMs then
      condReclaimPending now cur
    else
      (false, cur)

/-- tryRecordNotificationAtomically (storage.ts:578-671) on the single row of one
    (gameId, subscriptionId, notificationType) key, with no interleaving between
    its internal steps: an absent row means the INSERT with status='pending'
    succeeds (return true); an existing row takes the unique-violation branch. -/
def tryRecordNotificationAtomically (now : Int) (cur : Option NRec) :
    Bool × Option NRec :=
  match cur with
  | none => (true, some { status := NStatus.pending, createdAt := now, sentAt := none })
  | some r => tryClaimExisting now r (some r)

/-- markNotificationSending (storage.ts:674-687): UPDATE ... SET status='sending',
    created_at=now WHERE (key) AND status='pending'; returns whether a row was
    affected. -/
def markNotificationSending (now : Int) (cur : Option NRec) : Bool × Option NRec :=
  match cur with
  | some r =>
    if r.status = NStatus.pending then
      (true, some { r with status := NStatus.sending, createdAt := now })
    else
      (false, some r)
  | none => (false, none)

/-- markNotificationSent (storage.ts:690-702): UPDATE ... SET status='sent',
    sent_at=now WHERE (key) -- no status guard; returns whether a row was affected. -/
def markNotificationSent (now : Int) (cur : Option NRec) : Bool × Option NRec :=
  match cur with
  | some r => (true, some { r with status := NStatus.sent, sentAt := some now })
  | none => (false, none)

/-- deleteNotificationRecord (storage.ts:705-714): DELETE WHERE (key); returns
    whether a row was affected. -/
def deleteNotificationRecord (cur : Option NRec) : Bool × Option NRec :=
  match cur with
  | some _ => (true, none)
  | none => (false, none)

/- ----------------------------------------------------------------------------
   Eligibility evaluator (sync-service.ts:311-345).
---------------------------------------------------------------------------- -/

/-- `(gameDateTime.getTime() - now.getTime()) / (1000 * 60 * 60)`
    (sync-service.ts:338).  The JS double division is exact enough that the
    comparisons with 21 and 27 agree with exact rational arithmetic, so the
    quotient is modelled in ℚ. -/
def hoursUntilGame (gameDateTime now : Int) : ℚ :=
  ((gameDateTime - now : Int) : ℚ) / (1000 * 60 * 60)

/-- `timeDiffHours > 21 && timeDiffHours <= 27` (sync-service.ts:339,519). -/
def needs24HourNotification (gameDateTime now : Int) : Bool :=
  decide (21 < hoursUntilGame gameDateTime now) &&
  decide (hoursUntilGame gameDateTime now ≤ 27)

def msPerDay : Int := 24 * 60 * 60 * 1000

/-- Midnight of the (reference-local) calendar day containing `t`. -/
def dayStart (t : Int) : Int := t - t % msPerDay

/-- Milliseconds elapsed since midnight of the day containing `t`. -/
def msOfDay (t : Int) : Int := t % msPerDay

/-- date-fns `isSameDay` (sync-service.ts:343,520). -/
def isSameDay (a b : Int) : Bool := dayStart a == dayStart b

/-- `morningStart.setHours(8, 0, 0, 0)` on now's date (sync-service.ts:312-313). -/
def morningStart (now : Int) : Int := dayStart now + 8 * 60 * 60 * 1000

/-- `morningEnd.setHours(9, 0, 0, 0)` on now's date (sync-service.ts:314-315). -/
def morningEnd (now : Int) : Int := dayStart now + 9 * 60 * 60 * 1000

/-- `isSameDay(gameDateTime, now) && isAfter(now, morningStart) &&
    isBefore(now, morningEnd)` (sync-service.ts:342-345,520); date-fns isAfter
    and isBefore are strict comparisons. -/
def needsMorningNotification (gameDateTime now : Int) : Bool :=
  isSameDay gameDateTime now &&
  decide (morningStart now < now) &&
  decide (now < morningEnd now)

/- ----------------------------------------------------------------------------
   Delivery orchestrator (checkAndSendNotifications, sync-service.ts:292-578).
---------------------------------------------------------------------------- -/

/-- A game as the notification engine reads it.  `dateTime` is the combined
    timestamp computed at sync-service.ts:319-333 (the game's date with the
    parsed "H:MM AM/PM" time of day applied, midnight when the time string does
    not match); display-only fields (opponent, location, isHome, scores) are
    omitted because only message text depends on them. -/
structure Game where
  id : String
  sport : String
  dateTime : Int
deriving DecidableEq, Repr

/-- An email subscription row (shared/schema.ts:46-52), restricted to the
    fields the notification engine reads. -/
structure Subscriber where
  id : String
  email : String
  sports : List String
deriving DecidableEq, Repr

/-- A push_subscriptions row (shared/schema.ts:167-175), restricted to the
    fields the notification engine reads. -/
structure PushTarget where
  id : String
  fcmToken : String
  sports : List String
deriving DecidableEq, Repr

/-- The composite key of a sent_notifications row; unique per row
    (shared/schema.ts:154). -/
structure NKey where
  gameId : String
  subscriptionId : String
  notificationType : String
deriving DecidableEq, Repr

/-- The sent_notifications table: at most one row per key (invariant I1),
    so an association list keyed by NKey. -/
abbrev Ledger := List (NKey × NRec)

def lookupRec : Ledger → NKey → Option NRec
  | [], _ => none
  | (k', r) :: rest, k => if k' = k then some r else lookupRec rest k

def writeRec : Ledger → NKey → NRec → Ledger
  | [], k, r => [(k, r)]
  | (k', r') :: rest, k, r =>
    if k' = k then (k, r) :: rest else (k', r') :: writeRec rest k r

def eraseRec : Ledger → NKey → Ledger
  | [], _ => []
  | (k', r') :: rest, k =>
    if k' = k then eraseRec rest k else (k', r') :: eraseRec rest k

/-- Run one of the per-row storage primitives against the table at key `k`. -/
def applyAt (st : Ledger) (k : NKey) (f : Option NRec → Bool × Option NRec) :
    Bool × Ledger :=
  match f (lookupRec st k) with
  | (b, some r) => (b, writeRec st k r)
  | (b, none) => (b, eraseRec st k)

/-- Outcome of one emailService.send24HourReminder / sendGameDayReminder call
    (sync-service.ts:392,463): resolved true, resolved false, or rejected. -/
inductive EmailResult where
  | delivered
  | failed
  | threw
deriving DecidableEq, Repr

/-- Outcome of the underlying Firebase messaging.send call
    (firebase-admin.ts:38-67): success, one of the two permanently-invalid-token
    error codes, or any other (transient) error. -/
inductive PushOutcome where
  | delivered
  | tokenNotRegistered
  | tokenInvalid
  | otherError
deriving DecidableEq, Repr

/-- sendPushNotification (firebase-admin.ts:28-68): returns true on success and
    false on every error, collapsing the invalid-token error codes and all other
    errors into the same boolean. -/
def sendPushNotification : PushOutcome → Bool
  | PushOutcome.delivered => true
  | _ => false

/-- Observable storage / delivery events of one pass, in program order. -/
inductive NEvent where
  | claim (k : NKey) (granted : Bool)
  | markSendingEv (k : NKey) (ok : Bool)
  | markSentEv (k : NKey)
  | deleteRecordEv (k : NKey)
  | emailAttempt (k : NKey) (outcome : EmailResult)
  | pushAttempt (token : String) (ok : Bool)
  | deleteTarget (token : String)
deriving DecidableEq, Repr

/-- The mutable state of one checkAndSendNotifications pass: the
    sent_notifications table, the push_subscriptions table, the NotificationCheck
    counters (sync-service.ts:280-299; emailsSent also counts pushes, line 552),
    and the trace of events so far. -/
structure PassState where
  ledger : Ledger
  registry : List PushTarget
  gamesIn24Hours : Nat
  gamesMorningOf : Nat
  emailsSent : Nat
  skippedDuplicates : Nat
  errors : List String
  trace : List NEvent
deriving DecidableEq, Repr

def initPassState (ledger : Ledger) (registry : List PushTarget) : PassState :=
  { ledger := ledger, registry := registry, gamesIn24Hours := 0,
    gamesMorningOf := 0, emailsSent := 0, skippedDuplicates := 0,
    errors := [], trace := [] }

/-- The post-claim part of one email iteration (sync-service.ts:378-424 and
    449-495): markNotificationSending with its boolean result discarded, the
    send, then markNotificationSent / deleteNotificationRecord.  The storage
    calls themselves never fail in this model, so the catch branches around them
    are unreachable. -/
def emailDeliver (now : Int) (emailCap : NKey → EmailResult) (k : NKey)
    (email : String) (st : PassState) : PassState :=
  let ms := applyAt st.ledger k (markNotificationSending now)
  let st1 : PassState := { st with
    ledger := ms.snd,
    trace := st.trace ++ [NEvent.markSendingEv k ms.fst] }
  let r := emailCap k
  let st2 : PassState := { st1 with trace := st1.trace ++ [NEvent.emailAttempt k r] }
  match r with
  | EmailResult.threw =>
    let d := applyAt st2.ledger k deleteNotificationRecord
    { st2 with
      ledger := d.snd,
      trace := st2.trace ++ [NEvent.deleteRecordEv k],
      errors := st2.errors ++ ["Email send threw error for " ++ email ++ " - will retry"] }
  | EmailResult.failed =>
    let d := applyAt st2.ledger k deleteNotificationRecord
    { st2 with
      ledger := d.snd,
      trace := st2.trace ++ [NEvent.deleteRecordEv k],
      errors := st2.errors ++ ["Email delivery failed for " ++ email ++ " - will retry on next check"] }
  | EmailResult.delivered =>
    let m := applyAt st2.ledger k (markNotificationSent now)
    { st2 with
      ledger := m.snd,
      trace := st2.trace ++ [NEvent.markSentEv k],
      emailsSent := st2.emailsSent + 1 }

/-- One email-subscriber iteration (sync-service.ts:359-425 / 430-496):
    tryRecordNotificationAtomically, then either the skipped-duplicate branch
    or the delivery block. -/
def emailSubscriberStep (now : Int) (emailCap : NKey → EmailResult) (k : NKey)
    (email : String) (st : PassState) : PassState :=
  let c := applyAt st.ledger k (tryRecordNotificationAtomically now)
  let st1 : PassState := { st with
    ledger := c.snd,
    trace := st.trace ++ [NEvent.claim k c.fst] }
  if c.fst then
    emailDeliver now emailCap k email st1
  else
    { st1 with skippedDuplicates := st1.skippedDuplicates + 1 }

/-- One game of the email loop (sync-service.ts:318-498): skip if no window
    applies; otherwise process the interested subscribers for the 24-hour
    window and then for the game-day window. -/
def emailGame (now : Int) (emailCap : NKey → EmailResult)
    (subs : List Subscriber) (g : Game) (st : PassState) : PassState :=
  let n24 := needs24HourNotification g.dateTime now
  let nm := needsMorningNotification g.dateTime now
  if !n24 && !nm then
    st
  else
    let interested := subs.filter (fun s => s.sports.contains g.sport)
    let st1 :=
      if n24 then
        interested.foldl
          (fun acc s =>
            emailSubscriberStep now emailCap
              { gameId := g.id, subscriptionId := s.id, notificationType := "24hour" }
              s.email acc)
          { st with gamesIn24Hours := st.gamesIn24Hours + 1 }
      else st
    if nm then
      interested.foldl
        (fun acc s =>
          emailSubscriberStep now emailCap
            { gameId := g.id, subscriptionId := s.id, notificationType := "gameday" }
            s.email acc)
        { st1 with gamesMorningOf := st1.gamesMorningOf + 1 }
    else st1

def emailPhase (now : Int) (emailCap : NKey → EmailResult)
    (subs : List Subscriber) (games : List Game) (st : PassState) : PassState :=
  games.foldl (fun acc g => emailGame now emailCap subs g acc) st

/-- One push-target iteration (sync-service.ts:526-559): tryClaim (a lost claim
    is skipped with no counter update), sendPushNotification, then on success
    markNotificationSent and the shared sent counter, and on failure
    deleteNotificationRecord plus deletePushSubscriptionByToken -- no error-list
    entry in either case. -/
def pushTargetStep (now : Int) (pushCap : String → PushOutcome) (g : Game)
    (notifType : String) (p : PushTarget) (st : PassState) : PassState :=
  let k : NKey := { gameId := g.id, subscriptionId := p.id, notificationType := notifType }
  let c := applyAt st.ledger k (tryRecordNotificationAtomically now)
  let st1 : PassState := { st with
    ledger := c.snd,
    trace := st.trace ++ [NEvent.claim k c.fst] }
  if c.fst then
    let ok := sendPushNotification (pushCap p.fcmToken)
    let st2 : PassState := { st1 with trace := st1.trace ++ [NEvent.pushAttempt p.fcmToken ok] }
    if ok then
      let m := applyAt st2.ledger k (markNotificationSent now)
      { st2 with
        ledger := m.snd,
        trace := st2.trace ++ [NEvent.markSentEv k],
        emailsSent := st2.emailsSent + 1 }
    else
      let d := applyAt st2.ledger k deleteNotificationRecord
      { st2 with
        ledger := d.snd,
        registry := st2.registry.filter (fun q => !(q.fcmToken == p.fcmToken)),
        trace := st2.trace ++ [NEvent.deleteRecordEv k, NEvent.deleteTarget p.fcmToken] }
  else
    st1

/-- One game of the push loop (sync-service.ts:504-560); `snapshot` is the
    pushSubscriptions list read once at line 502, iterated even as the registry
    shrinks. -/
def pushGame (now : Int) (pushCap : String → PushOutcome)
    (snapshot : List PushTarget) (g : Game) (st : PassState) : PassState :=
  let n24 := needs24HourNotification g.dateTime now
  let nm := needsMorningNotification g.dateTime now
  if !n24 && !nm then
    st
  else
    let matching := snapshot.filter (fun s => s.sports.contains g.sport)
    let notifType := if n24 then "24hour-push" else "gameday-push"
    matching.foldl (fun acc p => pushTargetStep now pushCap g notifType p acc) st

/-- The push block (sync-service.ts:501-561): skipped entirely when the
    registry snapshot is empty. -/
def pushPhase (now : Int) (pushCap : String → PushOutcome) (games : List Game)
    (st : PassState) : PassState :=
  let snapshot := st.registry
  if snapshot.isEmpty then
    st
  else
    games.foldl (fun acc g => pushGame now pushCap snapshot g acc) st

/-- checkAndSendNotifications (sync-service.ts:292-578): load games,
    subscriptions and the ledger; return immediately when there are no email
    subscriptions (lines 306-309); otherwise run the email loop and then the
    push block.  Delivery outcomes are supplied by the oracles `emailCap`
    (per key) and `pushCap` (per token). -/
def checkAndSendNotifications (now : Int) (games : List Game)
    (subs : List Subscriber) (emailCap : NKey → EmailResult)
    (pushCap : String → PushOutcome) (ledger0 : Ledger)
    (registry0 : List PushTarget) : PassState :=
  let st0 := initPassState ledger0 registry0
  if subs.isEmpty then
    st0
  else
    pushPhase now pushCap games (emailPhase now emailCap subs games st0)

/- ----------------------------------------------------------------------------
   Helper lemmas.
---------------------------------------------------------------------------- -/

/-- Position of a status along the pending -> sending -> sent progression. -/
def statusRank : NStatus → Nat
  | NStatus.pending => 0
  | NStatus.sending => 1
  | NStatus.sent => 2

theorem hoursUntil_lt21 (g now : Int) :
    (21 < hoursUntilGame g now) ↔ (75600000 < g - now) := by
  unfold hoursUntilGame
  rw [lt_div_iff₀ (by norm_num : (0:ℚ) < 1000*60*60)]
  norm_num
  exact_mod_cast Iff.rfl

theorem hoursUntil_le27 (g now : Int) :
    (hoursUntilGame g now ≤ 27) ↔ (g - now ≤ 97200000) := by
  unfold hoursUntilGame
  rw [div_le_iff₀ (by norm_num : (0:ℚ) < 1000*60*60)]
  norm_num
  exact_mod_cast Iff.rfl

/-- The real-division comparisons of sync-service.ts:339 agree with integer
    millisecond thresholds. -/
theorem needs24_eq_ms (g now : Int) : needs24HourNotification g now =
    (decide (75600000 < g - now) && decide (g - now ≤ 97200000)) := by
  unfold needs24HourNotification
  rw [decide_eq_decide.mpr (hoursUntil_lt21 g now),
      decide_eq_decide.mpr (hoursUntil_le27 g now)]

/- ----------------------------------------------------------------------------
   C1
---------------------------------------------------------------------------- -/

/-- C1: for an existing claim record, tryClaim returns false with the record
    unchanged when its status is 'sent' (regardless of elapsed time) or when its
    status is 'pending' or 'sending' with createdAt at most 5 minutes old; when
    the status is 'pending' or 'sending' with createdAt older than 5 minutes it
    performs the conditional update guarded on that same status and staleness
    (resetting 'sending' to 'pending' and refreshing createdAt) and returns true
    exactly when that conditional update affected the row. -/
theorem tryClaim_existing_record_spec (now : Int) (readRec : NRec) (cur : Option NRec) :
    (readRec.status = NStatus.sent →
      tryClaimExisting now readRec cur = (false, cur)) ∧
    ((readRec.status = NStatus.pending ∨ readRec.status = NStatus.sending) →
      now - staleMs ≤ readRec.createdAt →
      tryClaimExisting now readRec cur = (false, cur)) ∧
    (readRec.status = NStatus.sending → readRec.createdAt < now - staleMs →
      tryClaimExisting now readRec cur = condReclaimSending now cur) ∧
    (readRec.status = NStatus.pending → readRec.createdAt < now - staleMs →
      tryClaimExisting now readRec cur = condReclaimPending now cur) ∧
    ((condReclaimSending now cur).fst = true ↔
      ∃ r, cur = some r ∧ r.status = NStatus.sending ∧ r.createdAt < now - staleMs) ∧
    (∀ r, cur = some r → r.status = NStatus.sending → r.createdAt < now - staleMs →
      condReclaimSending now cur =
        (true, some { status := NStatus.pending, createdAt := now, sentAt := r.sentAt })) ∧
    ((condReclaimSending now cur).fst = false → (condReclaimSending now cur).snd = cur) ∧
    ((condReclaimPending now cur).fst = true ↔
      ∃ r, cur = some r ∧ r.status = NStatus.pending ∧ r.createdAt < now - staleMs) ∧
    (∀ r, cur = some r → r.status = NStatus.pending → r.createdAt < now - staleMs →
      condReclaimPending now cur = (true, some { r with createdAt := now })) ∧
    ((condReclaimPending now cur).fst = false → (condReclaimPending now cur).snd = cur) := by
  refine ⟨?_, ?_, ?_, ?_, ?_, ?_, ?_, ?_, ?_, ?_⟩
  · intro hs
    simp [tryClaimExisting, hs]
  · rintro (hs | hs) hfresh <;>
      simp [tryClaimExisting, hs, not_lt.mpr hfresh]
  · intro hs hstale
    simp [tryClaimExisting, hs, hstale]
  · intro hs hstale
    simp [tryClaimExisting, hs, hstale]
  · constructor
    · intro h
      rcases cur with _ | ⟨⟨s', c', sa'⟩⟩
      · simp [condReclaimSending] at h
      · simp only [condReclaimSending] at h
        split at h
        · rename_i hcond
          exact ⟨⟨s', c', sa'⟩, rfl, hcond.1, hcond.2⟩
        · simp at h
    · rintro ⟨r, rfl, hs, hstale⟩
      simp [condReclaimSending, hs, hstale]
  · rintro r rfl hs hstale
    simp [condReclaimSending, hs, hstale]
  · rcases cur with _ | ⟨⟨s', c', sa'⟩⟩
    · simp [condReclaimSending]
    · simp only [condReclaimSending]
      split <;> simp
  · constructor
    · intro h
      rcases cur with _ | ⟨⟨s', c', sa'⟩⟩
      · simp [condReclaimPending] at h
      · simp only [condReclaimPending] at h
        split at h
        · rename_i hcond
          exact ⟨⟨s', c', sa'⟩, rfl, hcond.1, hcond.2⟩
        · simp at h
    · rintro ⟨r, rfl, hs, hstale⟩
      simp [condReclaimPending, hs, hstale]
  · rintro r rfl hs hstale
    simp [condReclaimPending, hs, hstale]
  · rcases cur with _ | ⟨⟨s', c', sa'⟩⟩
    · simp [condReclaimPending]
    · simp only [condReclaimPending]
      split <;> simp

/-- Witness for C1 at concrete inputs: a sent record is skipped; a fresh pending
    record is skipped; stale sending and stale pending records are reclaimed. -/
theorem tryClaim_existing_record_spec_witness :
    tryClaimExisting 1000 ⟨NStatus.sent, 0, some 5⟩ (some ⟨NStatus.sent, 0, some 5⟩)
      = (false, some ⟨NStatus.sent, 0, some 5⟩) ∧
    tryClaimExisting 300000 ⟨NStatus.pending, 0, none⟩ (some ⟨NStatus.pending, 0, none⟩)
      = (false, some ⟨NStatus.pending, 0, none⟩) ∧
    tryClaimExisting 300001 ⟨NStatus.sending, 0, none⟩ (some ⟨NStatus.sending, 0, none⟩)
      = (true, some ⟨NStatus.pending, 300001, none⟩) ∧
    tryClaimExisting 300001 ⟨NStatus.pending, 0, none⟩ (some ⟨NStatus.pending, 0, none⟩)
      = (true, some ⟨NStatus.pending, 300001, none⟩) := by
  refine ⟨?_, ?_, ?_, ?_⟩
  · exact (tryClaim_existing_record_spec 1000 ⟨NStatus.sent, 0, some 5⟩
      (some ⟨NStatus.sent, 0, some 5⟩)).1 rfl
  · exact (tryClaim_existing_record_spec 300000 ⟨NStatus.pending, 0, none⟩
      (some ⟨NStatus.pending, 0, none⟩)).2.1 (Or.inl rfl) (by decide)
  · have h := tryClaim_existing_record_spec 300001 ⟨NStatus.sending, 0, none⟩
      (some ⟨NStatus.sending, 0, none⟩)
    exact (h.2.2.1 rfl (by decide)).trans
      (h.2.2.2.2.2.1 ⟨NStatus.sending, 0, none⟩ rfl rfl (by decide))
  · have h := tryClaim_existing_record_spec 300001 ⟨NStatus.pending, 0, none⟩
      (some ⟨NStatus.pending, 0, none⟩)
    exact (h.2.2.2.1 rfl (by decide)).trans
      (h.2.2.2.2.2.2.2.2.1 ⟨NStatus.pending, 0, none⟩ rfl rfl (by decide))

/- ----------------------------------------------------------------------------
   C5
---------------------------------------------------------------------------- -/

/-- C5: across the Ledger operations, a surviving record's status never moves
    backward along pending -> sending -> sent, except in the stale-reclaim
    branch of tryClaim, which is exactly the sending -> pending reset with a
    refreshed createdAt (the pending -> pending reclaim keeps the same rank);
    markSending, markSent and delete never move status backward. -/
theorem status_no_regress_except_stale (now : Int) (readRec r r' : NRec) :
    ((markNotificationSending now (some r)).snd = some r' →
      statusRank r.status ≤ statusRank r'.status) ∧
    ((markNotificationSent now (some r)).snd = some r' →
      statusRank r.status ≤ statusRank r'.status) ∧
    ((deleteNotificationRecord (some r)).snd = none) ∧
    ((tryRecordNotificationAtomically now (some r)).snd = some r' →
      statusRank r.status ≤ statusRank r'.status ∨
      (r.status = NStatus.sending ∧ r.createdAt < now - staleMs ∧
        r'.status = NStatus.pending ∧ r'.createdAt = now)) ∧
    ((tryClaimExisting now readRec (some r)).snd = some r' →
      statusRank r.status ≤ statusRank r'.status ∨
      (r.status = NStatus.sending ∧ r.createdAt < now - staleMs ∧
        r'.status = NStatus.pending ∧ r'.createdAt = now)) := by
  obtain ⟨s, c, sa⟩ := r
  obtain ⟨s', c', sa'⟩ := r'
  have hcs : (condReclaimSending now (some ⟨s, c, sa⟩)).snd = some ⟨s', c', sa'⟩ →
      statusRank s ≤ statusRank s' ∨
      (s = NStatus.sending ∧ c < now - staleMs ∧ s' = NStatus.pending ∧ c' = now) := by
    simp only [condReclaimSending]
    split
    · rename_i hcond
      intro h
      simp only [Option.some.injEq, NRec.mk.injEq] at h
      exact Or.inr ⟨hcond.1, hcond.2, h.1.symm, h.2.1.symm⟩
    · intro h
      simp only [Option.some.injEq, NRec.mk.injEq] at h
      rcases h with ⟨rfl, rfl, rfl⟩
      exact Or.inl le_rfl
  have hcp : (condReclaimPending now (some ⟨s, c, sa⟩)).snd = some ⟨s', c', sa'⟩ →
      statusRank s ≤ statusRank s' := by
    simp only [condReclaimPending]
    split
    · intro h
      simp only [Option.some.injEq, NRec.mk.injEq] at h
      rcases h with ⟨rfl, rfl, rfl⟩
      exact le_rfl
    · intro h
      simp only [Option.some.injEq, NRec.mk.injEq] at h
      rcases h with ⟨rfl, rfl, rfl⟩
      exact le_rfl
  have hclaim : ∀ rd : NRec,
      (tryClaimExisting now rd (some ⟨s, c, sa⟩)).snd = some ⟨s', c', sa'⟩ →
      statusRank s ≤ statusRank s' ∨
      (s = NStatus.sending ∧ c < now - staleMs ∧ s' = NStatus.pending ∧ c' = now) := by
    intro rd h
    simp only [tryClaimExisting] at h
    split_ifs at h <;>
      first
        | exact hcs h
        | exact Or.inl (hcp h)
        | · simp only [Option.some.injEq, NRec.mk.injEq] at h
            rcases h with ⟨rfl, rfl, rfl⟩
            exact Or.inl le_rfl
  refine ⟨?_, ?_, by simp [deleteNotificationRecord], ?_, hclaim readRec⟩
  · simp only [markNotificationSending]
    split
    · intro h
      simp only [Option.some.injEq, NRec.mk.injEq] at h
      rename_i hs
      rcases h with ⟨rfl, rfl, rfl⟩
      rw [hs]
      simp [statusRank]
    · intro h
      simp only [Option.some.injEq, NRec.mk.injEq] at h
      rcases h with ⟨rfl, rfl, rfl⟩
      exact le_rfl
  · simp only [markNotificationSent]
    intro h
    simp only [Option.some.injEq, NRec.mk.injEq] at h
    rcases h with ⟨rfl, rfl, rfl⟩
    cases s <;> simp [statusRank]
  · simp only [tryRecordNotificationAtomically]
    exact hclaim ⟨s, c, sa⟩


/-- Witness for C5: the happy-path pending -> sending transition is forward,
    and the concrete stale reclaim at now = 300001 of a sending record created
    at 0 is the designated backward transition. -/
theorem status_no_regress_except_stale_witness :
    statusRank NStatus.pending ≤ statusRank NStatus.sending ∧
    (statusRank NStatus.sending ≤ statusRank NStatus.pending ∨
      (NStatus.sending = NStatus.sending ∧ (0:Int) < 300001 - staleMs ∧
        NStatus.pending = NStatus.pending ∧ (300001:Int) = 300001)) := by
  constructor
  · exact (status_no_regress_except_stale 5 ⟨NStatus.pending, 0, none⟩
      ⟨NStatus.pending, 0, none⟩ ⟨NStatus.sending, 5, none⟩).1 (by decide)
  · exact (status_no_regress_except_stale 300001 ⟨NStatus.sending, 0, none⟩
      ⟨NStatus.sending, 0, none⟩ ⟨NStatus.pending, 300001, none⟩).2.2.2.1 (by decide)

theorem hoursUntil_lt_21_strict (g now : Int) :
    (hoursUntilGame g now < 21) ↔ (g - now < 75600000) := by
  unfold hoursUntilGame
  rw [div_lt_iff₀ (by norm_num : (0:ℚ) < 1000*60*60)]
  norm_num
  exact_mod_cast Iff.rfl

/- ----------------------------------------------------------------------------
   C2
---------------------------------------------------------------------------- -/

/-- C2: a game is 24-hour-window eligible iff 21 < hoursUntilGame <= 27; a game
    at exactly now + 27h is eligible, at exactly now + 21h is not, and at
    now + 27h01m is not. -/
theorem window24_boundaries (g now : Int) :
    (needs24HourNotification g now = true ↔
      (21 < hoursUntilGame g now ∧ hoursUntilGame g now ≤ 27)) ∧
    needs24HourNotification (now + 27 * 3600000) now = true ∧
    needs24HourNotification (now + 21 * 3600000) now = false ∧
    needs24HourNotification (now + 27 * 3600000 + 60000) now = false := by
  refine ⟨by simp [needs24HourNotification], ?_, ?_, ?_⟩ <;>
    rw [needs24_eq_ms] <;> simp <;> omega

/- ----------------------------------------------------------------------------
   C4
---------------------------------------------------------------------------- -/

/-- C4 counterexample: at a current time of exactly 08:00 (t = 28800000, the
    morningStart of its day) a same-day game is NOT game-day eligible, because
    isAfter(now, morningStart) is strict -- the window is exclusive at 08:00,
    not inclusive as claimed. -/
theorem morning_window_08_exclusive_cex :
    isSameDay (15 * 3600000) (8 * 3600000) = true ∧
    (8 * 3600000 : Int) = morningStart (8 * 3600000) ∧
    needsMorningNotification (15 * 3600000) (8 * 3600000) = false := by
  refine ⟨by decide, by decide, by decide⟩

/-- C4 (amended): a game is game-day-window eligible iff its calendar date
    equals today and the wall-clock time lies strictly between 08:00 and 09:00
    -- exclusive at both exactly 08:00 and exactly 09:00. -/
theorem morning_window_characterization (g now : Int) :
    (needsMorningNotification g now = true ↔
      (isSameDay g now = true ∧ 28800000 < msOfDay now ∧ msOfDay now < 32400000)) ∧
    needsMorningNotification g (dayStart now + 28800000) = false ∧
    needsMorningNotification g (dayStart now + 32400000) = false := by
  refine ⟨?_, ?_, ?_⟩
  · simp only [needsMorningNotification, Bool.and_eq_true, decide_eq_true_eq,
      morningStart, morningEnd, dayStart, msOfDay, msPerDay]
    constructor
    · rintro ⟨⟨h1, h2⟩, h3⟩
      exact ⟨h1, by omega, by omega⟩
    · rintro ⟨h1, h2, h3⟩
      exact ⟨⟨h1, by omega⟩, by omega⟩
  · have h : ¬ (morningStart (dayStart now + 28800000) < dayStart now + 28800000) := by
      simp only [morningStart, dayStart, msPerDay]
      omega
    simp [needsMorningNotification, h]
  · have h : ¬ (dayStart now + 32400000 < morningEnd (dayStart now + 32400000)) := by
      simp only [morningEnd, dayStart, msPerDay]
      omega
    simp [needsMorningNotification, h]

/- ----------------------------------------------------------------------------
   C8
---------------------------------------------------------------------------- -/

/-- C8: the 24-hour-window and game-day-window predicates are never both true
    at one evaluation time: a same-calendar-day game evaluated after 08:00 is
    strictly less than 21 hours away. -/
theorem windows_mutually_exclusive (g now : Int) :
    (isSameDay g now = true → morningStart now < now → hoursUntilGame g now < 21) ∧
    ¬(needs24HourNotification g now = true ∧ needsMorningNotification g now = true) := by
  have hkey : isSameDay g now = true → morningStart now < now → g - now < 75600000 := by
    intro hsd hafter
    have hsd' : dayStart g = dayStart now := by simpa [isSameDay] using hsd
    simp only [morningStart, dayStart, msPerDay] at hsd' hafter
    omega
  constructor
  · intro hsd hafter
    exact (hoursUntil_lt_21_strict g now).mpr (hkey hsd hafter)
  · rintro ⟨h24, hm⟩
    simp only [needsMorningNotification, Bool.and_eq_true, decide_eq_true_eq] at hm
    obtain ⟨⟨hsd, hafter⟩, _⟩ := hm
    have h1 := hkey hsd hafter
    rw [needs24_eq_ms] at h24
    simp only [Bool.and_eq_true, decide_eq_true_eq] at h24
    omega

/-- Witness for C8 at a concrete input: a same-day 15:00 game evaluated just
    after 08:00 is under 21 hours away. -/
theorem windows_mutually_exclusive_witness :
    hoursUntilGame (15 * 3600000) (8 * 3600000 + 1) < 21 := by
  exact (windows_mutually_exclusive (15 * 3600000) (8 * 3600000 + 1)).1
    (by decide) (by decide)

/- ----------------------------------------------------------------------------
   Ledger-table and orchestrator lemmas.
---------------------------------------------------------------------------- -/

theorem lookupRec_writeRec (st : Ledger) (k k' : NKey) (r : NRec) :
    lookupRec (writeRec st k r) k' = if k = k' then some r else lookupRec st k' := by
  induction st with
  | nil => by_cases hk : k = k' <;> simp [writeRec, lookupRec, hk]
  | cons p rest ih =>
    obtain ⟨k0, r0⟩ := p
    by_cases h : k0 = k
    · subst h
      by_cases hk : k0 = k' <;> simp [writeRec, lookupRec, hk]
    · by_cases hk : k0 = k'
      · subst hk
        have hne : ¬ k = k0 := fun hh => h hh.symm
        simp [writeRec, h, lookupRec, hne]
      · simp [writeRec, h, lookupRec, hk, ih]

theorem lookupRec_eraseRec (st : Ledger) (k k' : NKey) :
    lookupRec (eraseRec st k) k' = if k = k' then none else lookupRec st k' := by
  induction st with
  | nil => by_cases hk : k = k' <;> simp [eraseRec, lookupRec, hk]
  | cons p rest ih =>
    obtain ⟨k0, r0⟩ := p
    by_cases h : k0 = k
    · subst h
      by_cases hk : k0 = k'
      · subst hk
        simp [eraseRec, lookupRec, ih]
      · simp [eraseRec, lookupRec, hk, ih]
    · by_cases hk : k0 = k'
      · subst hk
        have hne : ¬ k = k0 := fun hh => h hh.symm
        simp [eraseRec, h, lookupRec, hne]
      · simp [eraseRec, h, lookupRec, hk, ih]

theorem applyAt_fst (st : Ledger) (k : NKey) (f : Option NRec → Bool × Option NRec) :
    (applyAt st k f).fst = (f (lookupRec st k)).fst := by
  unfold applyAt
  rcases f (lookupRec st k) with ⟨b, _ | r⟩ <;> rfl

theorem lookup_applyAt_self (st : Ledger) (k : NKey) (f : Option NRec → Bool × Option NRec) :
    lookupRec (applyAt st k f).snd k = (f (lookupRec st k)).snd := by
  unfold applyAt
  rcases f (lookupRec st k) with ⟨b, _ | r⟩ <;>
    simp [lookupRec_writeRec, lookupRec_eraseRec]

theorem lookup_applyAt_ne (st : Ledger) (k : NKey) (f : Option NRec → Bool × Option NRec)
    (k' : NKey) (h : k ≠ k') :
    lookupRec (applyAt st k f).snd k' = lookupRec st k' := by
  unfold applyAt
  rcases f (lookupRec st k) with ⟨b, _ | r⟩ <;>
    simp [lookupRec_writeRec, lookupRec_eraseRec, h]

/-- Is there any markNotificationSending call in the trace? -/
def hasMarkSendingEvent (tr : List NEvent) : Bool :=
  tr.any fun e => match e with
    | NEvent.markSendingEv _ _ => true
    | _ => false

/-- Is there a push delivery attempt for this token in the trace? -/
def hasPushAttemptFor (tr : List NEvent) (tok : String) : Bool :=
  tr.any fun e => match e with
    | NEvent.pushAttempt t _ => t == tok
    | _ => false

/-- Is there a push-target deletion for this token in the trace? -/
def hasDeleteTargetFor (tr : List NEvent) (tok : String) : Bool :=
  tr.any fun e => match e with
    | NEvent.deleteTarget t => t == tok
    | _ => false

theorem hasPushAttemptFor_append (a b : List NEvent) (tok : String) :
    hasPushAttemptFor (a ++ b) tok = (hasPushAttemptFor a tok || hasPushAttemptFor b tok) := by
  simp [hasPushAttemptFor, List.any_append]

/-- Events the email block appends after the delivery attempt. -/
def emailTailEvents (r : EmailResult) (k : NKey) : List NEvent :=
  match r with
  | EmailResult.delivered => [NEvent.markSentEv k]
  | _ => [NEvent.deleteRecordEv k]

theorem emailDeliver_trace (now : Int) (cap : NKey → EmailResult) (k : NKey)
    (email : String) (st : PassState) :
    (emailDeliver now cap k email st).trace =
      st.trace ++ NEvent.markSendingEv k
          (markNotificationSending now (lookupRec st.ledger k)).fst ::
        NEvent.emailAttempt k (cap k) :: emailTailEvents (cap k) k := by
  cases hr : cap k <;>
    simp [emailDeliver, hr, emailTailEvents, applyAt_fst]

theorem emailDeliver_registry (now : Int) (cap : NKey → EmailResult) (k : NKey)
    (email : String) (st : PassState) :
    (emailDeliver now cap k email st).registry = st.registry := by
  cases hr : cap k <;> simp [emailDeliver, hr]

theorem emailDeliver_ledger_ne (now : Int) (cap : NKey → EmailResult) (k : NKey)
    (email : String) (st : PassState) (k' : NKey) (h : k ≠ k') :
    lookupRec (emailDeliver now cap k email st).ledger k' = lookupRec st.ledger k' := by
  cases hr : cap k <;> simp [emailDeliver, hr, lookup_applyAt_ne _ _ _ _ h]

theorem emailSubscriberStep_registry (now : Int) (cap : NKey → EmailResult) (k : NKey)
    (email : String) (st : PassState) :
    (emailSubscriberStep now cap k email st).registry = st.registry := by
  by_cases hc : (applyAt st.ledger k (tryRecordNotificationAtomically now)).fst
  · simp [emailSubscriberStep, hc, emailDeliver_registry]
  · simp only [Bool.not_eq_true] at hc
    simp [emailSubscriberStep, hc]

theorem emailSubscriberStep_ledger_ne (now : Int) (cap : NKey → EmailResult) (k : NKey)
    (email : String) (st : PassState) (k' : NKey) (h : k ≠ k') :
    lookupRec (emailSubscriberStep now cap k email st).ledger k' = lookupRec st.ledger k' := by
  by_cases hc : (applyAt st.ledger k (tryRecordNotificationAtomically now)).fst
  · simp [emailSubscriberStep, hc, emailDeliver_ledger_ne _ _ _ _ _ _ h,
      lookup_applyAt_ne _ _ _ _ h]
  · simp only [Bool.not_eq_true] at hc
    simp [emailSubscriberStep, hc, lookup_applyAt_ne _ _ _ _ h]

theorem emailSubscriberStep_trace_granted (now : Int) (cap : NKey → EmailResult)
    (k : NKey) (email : String) (st : PassState)
    (h : (tryRecordNotificationAtomically now (lookupRec st.ledger k)).fst = true) :
    ∃ b, (emailSubscriberStep now cap k email st).trace =
      st.trace ++ NEvent.claim k true :: NEvent.markSendingEv k b ::
        NEvent.emailAttempt k (cap k) :: emailTailEvents (cap k) k := by
  have hc : (applyAt st.ledger k (tryRecordNotificationAtomically now)).fst = true := by
    rw [applyAt_fst]
    exact h
  refine ⟨(markNotificationSending now
    (lookupRec (applyAt st.ledger k (tryRecordNotificationAtomically now)).snd k)).fst, ?_⟩
  simp only [emailSubscriberStep, hc, if_true]
  rw [emailDeliver_trace]
  simp

theorem pushTargetStep_ledger_ne (now : Int) (pushCap : String → PushOutcome)
    (g : Game) (nt : String) (p : PushTarget) (st : PassState) (k' : NKey)
    (h : ({ gameId := g.id, subscriptionId := p.id, notificationType := nt } : NKey) ≠ k') :
    lookupRec (pushTargetStep now pushCap g nt p st).ledger k' = lookupRec st.ledger k' := by
  by_cases hc : (applyAt st.ledger { gameId := g.id, subscriptionId := p.id, notificationType := nt } (tryRecordNotificationAtomically now)).fst
  · by_cases hok : sendPushNotification (pushCap p.fcmToken) <;>
      simp [pushTargetStep, hc, hok, lookup_applyAt_ne _ _ _ _ h]
  · simp only [Bool.not_eq_true] at hc
    simp [pushTargetStep, hc, lookup_applyAt_ne _ _ _ _ h]

theorem pushTargetStep_trace_extends (now : Int) (pushCap : String → PushOutcome)
    (g : Game) (nt : String) (p : PushTarget) (st : PassState) :
    ∃ t, (pushTargetStep now pushCap g nt p st).trace = st.trace ++ t := by
  by_cases hc : (applyAt st.ledger { gameId := g.id, subscriptionId := p.id, notificationType := nt } (tryRecordNotificationAtomically now)).fst
  · by_cases hok : sendPushNotification (pushCap p.fcmToken)
    · exact ⟨[NEvent.claim { gameId := g.id, subscriptionId := p.id, notificationType := nt } true,
        NEvent.pushAttempt p.fcmToken true,
        NEvent.markSentEv { gameId := g.id, subscriptionId := p.id, notificationType := nt }],
        by simp [pushTargetStep, hc, hok]⟩
    · simp only [Bool.not_eq_true] at hok
      exact ⟨[NEvent.claim { gameId := g.id, subscriptionId := p.id, notificationType := nt } true,
        NEvent.pushAttempt p.fcmToken false,
        NEvent.deleteRecordEv { gameId := g.id, subscriptionId := p.id, notificationType := nt },
        NEvent.deleteTarget p.fcmToken],
        by simp [pushTargetStep, hc, hok]⟩
  · simp only [Bool.not_eq_true] at hc
    exact ⟨[NEvent.claim { gameId := g.id, subscriptionId := p.id, notificationType := nt } false],
      by simp [pushTargetStep, hc]⟩

theorem pushTargetStep_attempts (now : Int) (pushCap : String → PushOutcome)
    (g : Game) (nt : String) (p : PushTarget) (st : PassState)
    (h : lookupRec st.ledger { gameId := g.id, subscriptionId := p.id, notificationType := nt } = none) :
    hasPushAttemptFor (pushTargetStep now pushCap g nt p st).trace p.fcmToken = true := by
  have hc : (applyAt st.ledger { gameId := g.id, subscriptionId := p.id, notificationType := nt } (tryRecordNotificationAtomically now)).fst = true := by
    rw [applyAt_fst, h]
    rfl
  by_cases hok : sendPushNotification (pushCap p.fcmToken)
  · simp [pushTargetStep, hc, hok, hasPushAttemptFor]
  · simp only [Bool.not_eq_true] at hok
    simp [pushTargetStep, hc, hok, hasPushAttemptFor]

theorem foldl_trace_extends {α : Type} (f : PassState → α → PassState) (l : List α)
    (hf : ∀ st a, ∃ t, (f st a).trace = st.trace ++ t) :
    ∀ st, ∃ t, (l.foldl f st).trace = st.trace ++ t := by
  induction l with
  | nil => exact fun st => ⟨[], by simp⟩
  | cons a rest ih =>
    intro st
    obtain ⟨t1, h1⟩ := hf st a
    obtain ⟨t2, h2⟩ := ih (f st a)
    exact ⟨t1 ++ t2, by simp [h2, h1]⟩

theorem foldl_pushAttempt_mono {α : Type} (f : PassState → α → PassState) (l : List α)
    (hf : ∀ st a, ∃ t, (f st a).trace = st.trace ++ t) (st : PassState) (tok : String)
    (h : hasPushAttemptFor st.trace tok = true) :
    hasPushAttemptFor ((l.foldl f st)).trace tok = true := by
  obtain ⟨t, ht⟩ := foldl_trace_extends f l hf st
  rw [ht, hasPushAttemptFor_append, h]
  rfl

theorem foldl_lookup_eq {α : Type} (f : PassState → α → PassState) (l : List α) (k' : NKey)
    (hf : ∀ st a, a ∈ l → lookupRec (f st a).ledger k' = lookupRec st.ledger k') :
    ∀ st, lookupRec ((l.foldl f st)).ledger k' = lookupRec st.ledger k' := by
  induction l with
  | nil => exact fun st => rfl
  | cons a rest ih =>
    intro st
    rw [List.foldl_cons, ih (fun st' a' ha' => hf st' a' (List.mem_cons_of_mem _ ha')),
      hf st a (List.mem_cons_self a rest)]

theorem foldl_registry_eq {α : Type} (f : PassState → α → PassState) (l : List α)
    (hf : ∀ st a, (f st a).registry = st.registry) :
    ∀ st, ((l.foldl f st)).registry = st.registry := by
  induction l with
  | nil => exact fun st => rfl
  | cons a rest ih =>
    intro st
    rw [List.foldl_cons, ih, hf]

theorem foldTargets_attempts (now : Int) (pushCap : String → PushOutcome)
    (g : Game) (nt : String) (l : List PushTarget) :
    ∀ (st : PassState) (p : PushTarget), p ∈ l →
    (∀ q ∈ l, q.id = p.id → q = p) →
    lookupRec st.ledger { gameId := g.id, subscriptionId := p.id, notificationType := nt } = none →
    hasPushAttemptFor
      ((l.foldl (fun acc q => pushTargetStep now pushCap g nt q acc) st)).trace
      p.fcmToken = true := by
  induction l with
  | nil =>
    intro st p hp
    simp at hp
  | cons q rest ih =>
    intro st p hp huniq hfree
    by_cases hqp : q = p
    · subst hqp
      have h1 := pushTargetStep_attempts now pushCap g nt q st hfree
      simp only [List.foldl_cons]
      exact foldl_pushAttempt_mono _ rest
        (fun st' a => pushTargetStep_trace_extends now pushCap g nt a st') _ _ h1
    · have hp' : p ∈ rest := by
        rcases List.mem_cons.mp hp with h | h
        · exact absurd h.symm hqp
        · exact h
      have hid : q.id ≠ p.id :=
        fun hh => hqp (huniq q (List.mem_cons_self q rest) hh)
      have hkey : ({ gameId := g.id, subscriptionId := q.id, notificationType := nt } : NKey)
          ≠ { gameId := g.id, subscriptionId := p.id, notificationType := nt } := by
        intro hh
        exact hid (congrArg NKey.subscriptionId hh)
      simp only [List.foldl_cons]
      exact ih (pushTargetStep now pushCap g nt q st) p hp'
        (fun q' hq' => huniq q' (List.mem_cons_of_mem _ hq'))
        (by rw [pushTargetStep_ledger_ne _ _ _ _ _ _ _ hkey]; exact hfree)

theorem pushGame_trace_extends (now : Int) (pushCap : String → PushOutcome)
    (snapshot : List PushTarget) (g : Game) (st : PassState) :
    ∃ t, (pushGame now pushCap snapshot g st).trace = st.trace ++ t := by
  rcases Bool.eq_false_or_eq_true (needs24HourNotification g.dateTime now) with hn24 | hn24 <;>
  rcases Bool.eq_false_or_eq_true (needsMorningNotification g.dateTime now) with hnm | hnm <;>
    simp only [pushGame, hn24, hnm, Bool.not_true, Bool.not_false, Bool.false_and,
      Bool.and_false, Bool.true_and, Bool.and_true, Bool.and_self, if_true, if_false,
      Bool.false_eq_true, Bool.true_eq_false, reduceIte] <;>
    first
      | exact foldl_trace_extends _ _
          (fun st' a => pushTargetStep_trace_extends now pushCap g _ a st') st
      | exact ⟨[], by simp⟩

theorem pushGame_ledger_ne (now : Int) (pushCap : String → PushOutcome)
    (snapshot : List PushTarget) (g : Game) (st : PassState) (k' : NKey)
    (h : k'.gameId ≠ g.id) :
    lookupRec (pushGame now pushCap snapshot g st).ledger k' = lookupRec st.ledger k' := by
  rcases Bool.eq_false_or_eq_true (needs24HourNotification g.dateTime now) with hn24 | hn24 <;>
  rcases Bool.eq_false_or_eq_true (needsMorningNotification g.dateTime now) with hnm | hnm <;>
    simp only [pushGame, hn24, hnm, Bool.not_true, Bool.not_false, Bool.false_and,
      Bool.and_false, Bool.true_and, Bool.and_true, Bool.and_self, if_true, if_false,
      Bool.false_eq_true, Bool.true_eq_false, reduceIte] <;>
    first
      | rfl
      | exact foldl_lookup_eq _ _ _
          (fun st' a _ => pushTargetStep_ledger_ne now pushCap g _ a st' k'
            (fun hh => h (by rw [← hh]))) st

theorem pushGame_attempts (now : Int) (pushCap : String → PushOutcome)
    (snapshot : List PushTarget) (g : Game) (st : PassState) (p : PushTarget)
    (helig : needs24HourNotification g.dateTime now = true ∨
      needsMorningNotification g.dateTime now = true)
    (hp : p ∈ snapshot) (hsport : p.sports.contains g.sport = true)
    (huniq : ∀ q ∈ snapshot, q.id = p.id → q = p)
    (hfree : lookupRec st.ledger
      { gameId := g.id, subscriptionId := p.id,
        notificationType := if needs24HourNotification g.dateTime now
          then "24hour-push" else "gameday-push" } = none) :
    hasPushAttemptFor (pushGame now pushCap snapshot g st).trace p.fcmToken = true := by
  rcases Bool.eq_false_or_eq_true (needs24HourNotification g.dateTime now) with hn24 | hn24 <;>
  rcases Bool.eq_false_or_eq_true (needsMorningNotification g.dateTime now) with hnm | hnm <;>
    [skip; skip; skip;
      (rcases helig with h | h
       · rw [h] at hn24
         exact absurd hn24 (by simp)
       · rw [h] at hnm
         exact absurd hnm (by simp))] <;>
    rw [hn24] at hfree <;>
    simp only [pushGame, hn24, hnm, Bool.not_true, Bool.not_false, Bool.false_and,
      Bool.and_false, Bool.true_and, Bool.and_true, Bool.and_self, if_true, if_false,
      Bool.false_eq_true, Bool.true_eq_false, reduceIte] <;>
    simp only [Bool.false_eq_true, Bool.true_eq_false, reduceIte, if_true, if_false] at hfree <;>
    refine foldTargets_attempts now pushCap g _ _ _ p ?_ ?_ hfree <;>
    first
      | exact List.mem_filter.mpr ⟨hp, hsport⟩
      | exact fun q hq => huniq q (List.mem_filter.mp hq).1

theorem emailGame_registry (now : Int) (cap : NKey → EmailResult)
    (subs : List Subscriber) (g : Game) (st : PassState) :
    (emailGame now cap subs g st).registry = st.registry := by
  rcases Bool.eq_false_or_eq_true (needs24HourNotification g.dateTime now) with hn24 | hn24 <;>
  rcases Bool.eq_false_or_eq_true (needsMorningNotification g.dateTime now) with hnm | hnm <;>
    simp only [emailGame, hn24, hnm, Bool.not_true, Bool.not_false, Bool.false_and,
      Bool.and_false, Bool.true_and, Bool.and_true, Bool.and_self, if_true, if_false,
      Bool.false_eq_true, Bool.true_eq_false, reduceIte] <;>
    repeat1
      first
        | rfl
        | rw [foldl_registry_eq _ _
            (fun st' a => emailSubscriberStep_registry now cap _ _ st')]

theorem emailGame_ledger_push_kinds (now : Int) (cap : NKey → EmailResult)
    (subs : List Subscriber) (g : Game) (st : PassState) (k' : NKey)
    (h24 : k'.notificationType ≠ "24hour") (hgd : k'.notificationType ≠ "gameday") :
    lookupRec (emailGame now cap subs g st).ledger k' = lookupRec st.ledger k' := by
  have hstep24 : ∀ (st' : PassState) (a : Subscriber),
      lookupRec (emailSubscriberStep now cap
        { gameId := g.id, subscriptionId := a.id, notificationType := "24hour" }
        a.email st').ledger k' = lookupRec st'.ledger k' :=
    fun st' a => emailSubscriberStep_ledger_ne now cap _ _ st' k'
      (fun hh => h24 (by rw [← hh]))
  have hstepgd : ∀ (st' : PassState) (a : Subscriber),
      lookupRec (emailSubscriberStep now cap
        { gameId := g.id, subscriptionId := a.id, notificationType := "gameday" }
        a.email st').ledger k' = lookupRec st'.ledger k' :=
    fun st' a => emailSubscriberStep_ledger_ne now cap _ _ st' k'
      (fun hh => hgd (by rw [← hh]))
  rcases Bool.eq_false_or_eq_true (needs24HourNotification g.dateTime now) with hn24 | hn24 <;>
  rcases Bool.eq_false_or_eq_true (needsMorningNotification g.dateTime now) with hnm | hnm <;>
    simp only [emailGame, hn24, hnm, Bool.not_true, Bool.not_false, Bool.false_and,
      Bool.and_false, Bool.true_and, Bool.and_true, Bool.and_self, if_true, if_false,
      Bool.false_eq_true, Bool.true_eq_false, reduceIte] <;>
    repeat1
      first
        | rfl
        | rw [foldl_lookup_eq _ _ _ (fun st' a _ => hstepgd st' a)]
        | rw [foldl_lookup_eq _ _ _ (fun st' a _ => hstep24 st' a)]

theorem emailPhase_registry (now : Int) (cap : NKey → EmailResult)
    (subs : List Subscriber) (games : List Game) (st : PassState) :
    (emailPhase now cap subs games st).registry = st.registry := by
  unfold emailPhase
  exact foldl_registry_eq _ _ (fun st' a => emailGame_registry now cap subs a st') st

theorem emailPhase_ledger_push_kinds (now : Int) (cap : NKey → EmailResult)
    (subs : List Subscriber) (games : List Game) (st : PassState) (k' : NKey)
    (h24 : k'.notificationType ≠ "24hour") (hgd : k'.notificationType ≠ "gameday") :
    lookupRec (emailPhase now cap subs games st).ledger k' = lookupRec st.ledger k' := by
  unfold emailPhase
  exact foldl_lookup_eq _ _ _
    (fun st' a _ => emailGame_ledger_push_kinds now cap subs a st' k' h24 hgd) st

theorem foldGames_attempts (now : Int) (pushCap : String → PushOutcome)
    (snapshot : List PushTarget) (p : PushTarget) (g : Game)
    (helig : needs24HourNotification g.dateTime now = true ∨
      needsMorningNotification g.dateTime now = true)
    (hp : p ∈ snapshot) (hsport : p.sports.contains g.sport = true)
    (huniq : ∀ q ∈ snapshot, q.id = p.id → q = p) :
    ∀ (l : List Game) (st : PassState), g ∈ l →
    (∀ g' ∈ l, g'.id = g.id → g' = g) →
    lookupRec st.ledger
      { gameId := g.id, subscriptionId := p.id,
        notificationType := if needs24HourNotification g.dateTime now
          then "24hour-push" else "gameday-push" } = none →
    hasPushAttemptFor
      ((l.foldl (fun acc gg => pushGame now pushCap snapshot gg acc) st)).trace
      p.fcmToken = true := by
  intro l
  induction l with
  | nil =>
    intro st hg
    simp at hg
  | cons g1 rest ih =>
    intro st hg hguniq hfree
    by_cases hg1 : g1 = g
    · subst hg1
      have h1 := pushGame_attempts now pushCap snapshot g1 st p helig hp hsport huniq hfree
      simp only [List.foldl_cons]
      exact foldl_pushAttempt_mono _ rest
        (fun st' a => pushGame_trace_extends now pushCap snapshot a st') _ _ h1
    · have hg' : g ∈ rest := by
        rcases List.mem_cons.mp hg with h | h
        · exact absurd h.symm hg1
        · exact h
      have hid : g.id ≠ g1.id :=
        fun hh => hg1 (hguniq g1 (List.mem_cons_self g1 rest) hh.symm)
      simp only [List.foldl_cons]
      exact ih (pushGame now pushCap snapshot g1 st) hg'
        (fun g' hgm => hguniq g' (List.mem_cons_of_mem _ hgm))
        (by rw [pushGame_ledger_ne now pushCap snapshot g1 st _ hid]; exact hfree)

theorem deleteRecord_snd (x : Option NRec) : (deleteNotificationRecord x).snd = none := by
  rcases x with _ | r <;> rfl

/- ----------------------------------------------------------------------------
   C10
---------------------------------------------------------------------------- -/

/-- C10: the email path ignores the boolean result of markNotificationSending:
    after a successful tryClaim the delivery capability is invoked
    unconditionally, and in particular when markNotificationSending returned
    false the send still happens (and on success is counted), so an email can
    be sent while the record is not in the 'sending' state. -/
theorem markSending_result_ignored (now : Int) (cap : NKey → EmailResult) (k : NKey)
    (email : String) :
    (∀ st : PassState,
      (tryRecordNotificationAtomically now (lookupRec st.ledger k)).fst = true →
      ∃ b, (emailSubscriberStep now cap k email st).trace =
        st.trace ++ NEvent.claim k true :: NEvent.markSendingEv k b ::
          NEvent.emailAttempt k (cap k) :: emailTailEvents (cap k) k) ∧
    (∀ st : PassState,
      (markNotificationSending now (lookupRec st.ledger k)).fst = false →
      ((emailDeliver now cap k email st).trace =
        st.trace ++ NEvent.markSendingEv k false ::
          NEvent.emailAttempt k (cap k) :: emailTailEvents (cap k) k) ∧
      (cap k = EmailResult.delivered →
        (emailDeliver now cap k email st).emailsSent = st.emailsSent + 1)) := by
  constructor
  · exact fun st h => emailSubscriberStep_trace_granted now cap k email st h
  · intro st h
    constructor
    · rw [emailDeliver_trace, h]
    · intro hd
      simp [emailDeliver, hd]

/-- Witness for C10: with the record already 'sent', markNotificationSending
    returns false, yet the email capability is still invoked and the pass
    counts the send. -/
theorem markSending_result_ignored_witness :
    (markNotificationSending 0 (lookupRec
        [(({ gameId := "g1", subscriptionId := "s1", notificationType := "24hour" } : NKey),
          (⟨NStatus.sent, 0, none⟩ : NRec))]
        { gameId := "g1", subscriptionId := "s1", notificationType := "24hour" })).fst
      = false ∧
    (emailDeliver 0 (fun _ => EmailResult.delivered)
        { gameId := "g1", subscriptionId := "s1", notificationType := "24hour" }
        "fan@example.com"
        (initPassState
          [(({ gameId := "g1", subscriptionId := "s1", notificationType := "24hour" } : NKey),
            (⟨NStatus.sent, 0, none⟩ : NRec))] [])).trace =
      [NEvent.markSendingEv
          { gameId := "g1", subscriptionId := "s1", notificationType := "24hour" } false,
        NEvent.emailAttempt
          { gameId := "g1", subscriptionId := "s1", notificationType := "24hour" }
          EmailResult.delivered,
        NEvent.markSentEv
          { gameId := "g1", subscriptionId := "s1", notificationType := "24hour" }] := by
  have h : (markNotificationSending 0 (lookupRec
      [(({ gameId := "g1", subscriptionId := "s1", notificationType := "24hour" } : NKey),
        (⟨NStatus.sent, 0, none⟩ : NRec))]
      { gameId := "g1", subscriptionId := "s1", notificationType := "24hour" })).fst
      = false := by decide
  refine ⟨h, ?_⟩
  have h2 := ((markSending_result_ignored 0 (fun _ => EmailResult.delivered)
      { gameId := "g1", subscriptionId := "s1", notificationType := "24hour" }
      "fan@example.com").2
    (initPassState
      [(({ gameId := "g1", subscriptionId := "s1", notificationType := "24hour" } : NKey),
        (⟨NStatus.sent, 0, none⟩ : NRec))] []) h).1
  simpa [initPassState, emailTailEvents] using h2

/- ----------------------------------------------------------------------------
   C3
---------------------------------------------------------------------------- -/

/-- C3 (amended): in the email delivery paths, after a successful tryClaim a
    failed delivery (false return or throw) deletes the claim record -- so an
    immediately following tryClaim for the same key returns true -- records the
    failure in the pass error list, and leaves the delivered count unchanged;
    the push path likewise deletes the record and leaves the count unchanged,
    but adds no error-list entry. -/
theorem email_failure_released_and_logged (now : Int) (cap : NKey → EmailResult)
    (k : NKey) (email : String) (st : PassState)
    (hclaim : (tryRecordNotificationAtomically now (lookupRec st.ledger k)).fst = true)
    (hfail : cap k = EmailResult.failed ∨ cap k = EmailResult.threw) :
    (lookupRec (emailSubscriberStep now cap k email st).ledger k = none ∧
      (tryRecordNotificationAtomically now
        (lookupRec (emailSubscriberStep now cap k email st).ledger k)).fst = true ∧
      (emailSubscriberStep now cap k email st).errors.length = st.errors.length + 1 ∧
      (emailSubscriberStep now cap k email st).emailsSent = st.emailsSent) ∧
    (∀ (pushCap : String → PushOutcome) (g : Game) (nt : String) (p : PushTarget)
        (st' : PassState),
      (tryRecordNotificationAtomically now (lookupRec st'.ledger
        { gameId := g.id, subscriptionId := p.id, notificationType := nt })).fst = true →
      sendPushNotification (pushCap p.fcmToken) = false →
      lookupRec (pushTargetStep now pushCap g nt p st').ledger
        { gameId := g.id, subscriptionId := p.id, notificationType := nt } = none ∧
      (pushTargetStep now pushCap g nt p st').emailsSent = st'.emailsSent ∧
      (pushTargetStep now pushCap g nt p st').errors = st'.errors) := by
  have hc : (applyAt st.ledger k (tryRecordNotificationAtomically now)).fst = true := by
    rw [applyAt_fst]
    exact hclaim
  constructor
  · have hled : lookupRec (emailSubscriberStep now cap k email st).ledger k = none := by
      rcases hfail with hf | hf <;>
        simp [emailSubscriberStep, hc, emailDeliver, hf, lookup_applyAt_self,
          deleteRecord_snd]
    refine ⟨hled, by rw [hled]; rfl, ?_, ?_⟩ <;>
      rcases hfail with hf | hf <;>
        simp [emailSubscriberStep, hc, emailDeliver, hf]
  · intro pushCap g nt p st' hclaim' hokf
    have hc' : (applyAt st'.ledger
        { gameId := g.id, subscriptionId := p.id, notificationType := nt }
        (tryRecordNotificationAtomically now)).fst = true := by
      rw [applyAt_fst]
      exact hclaim'
    refine ⟨?_, ?_, ?_⟩ <;>
      simp [pushTargetStep, hc', hokf, lookup_applyAt_self, deleteRecord_snd]

/-- Witness for C3 at a concrete input: a failed email delivery on an empty
    ledger deletes the fresh claim, logs one error, and counts nothing. -/
theorem email_failure_released_and_logged_witness :
    lookupRec (emailSubscriberStep 0 (fun _ => EmailResult.failed)
        { gameId := "g1", subscriptionId := "s1", notificationType := "24hour" }
        "fan@example.com" (initPassState [] [])).ledger
        { gameId := "g1", subscriptionId := "s1", notificationType := "24hour" } = none ∧
    (tryRecordNotificationAtomically 0
      (lookupRec (emailSubscriberStep 0 (fun _ => EmailResult.failed)
          { gameId := "g1", subscriptionId := "s1", notificationType := "24hour" }
          "fan@example.com" (initPassState [] [])).ledger
        { gameId := "g1", subscriptionId := "s1", notificationType := "24hour" })).fst
      = true ∧
    (emailSubscriberStep 0 (fun _ => EmailResult.failed)
        { gameId := "g1", subscriptionId := "s1", notificationType := "24hour" }
        "fan@example.com" (initPassState [] [])).errors.length = 1 ∧
    (emailSubscriberStep 0 (fun _ => EmailResult.failed)
        { gameId := "g1", subscriptionId := "s1", notificationType := "24hour" }
        "fan@example.com" (initPassState [] [])).emailsSent = 0 := by
  have h := email_failure_released_and_logged 0 (fun _ => EmailResult.failed)
    { gameId := "g1", subscriptionId := "s1", notificationType := "24hour" }
    "fan@example.com" (initPassState [] []) (by decide) (Or.inl rfl)
  exact ⟨h.1.1, h.1.2.1, by simpa [initPassState] using h.1.2.2.1,
    by simpa [initPassState] using h.1.2.2.2⟩

/- ----------------------------------------------------------------------------
   C6
---------------------------------------------------------------------------- -/

/-- C6 (amended): markSending succeeds exactly when the record is currently
    'pending', transitioning it to 'sending' with a refreshed timestamp and
    changing nothing otherwise; in the email delivery paths markSending is
    invoked after a successful tryClaim and before the delivery capability;
    the push delivery path invokes the delivery capability directly after a
    successful tryClaim without ever calling markSending. -/
theorem markSending_spec_and_call_sites (now : Int) :
    (∀ cur : Option NRec,
      ((markNotificationSending now cur).fst = true ↔
        ∃ r, cur = some r ∧ r.status = NStatus.pending) ∧
      (∀ r, cur = some r → r.status = NStatus.pending →
        markNotificationSending now cur =
          (true, some { r with status := NStatus.sending, createdAt := now })) ∧
      ((markNotificationSending now cur).fst = false →
        (markNotificationSending now cur).snd = cur)) ∧
    (∀ (cap : NKey → EmailResult) (k : NKey) (email : String) (st : PassState),
      (tryRecordNotificationAtomically now (lookupRec st.ledger k)).fst = true →
      ∃ b, (emailSubscriberStep now cap k email st).trace =
        st.trace ++ NEvent.claim k true :: NEvent.markSendingEv k b ::
          NEvent.emailAttempt k (cap k) :: emailTailEvents (cap k) k) ∧
    (∀ (pushCap : String → PushOutcome) (g : Game) (nt : String) (p : PushTarget)
        (st : PassState),
      ∃ t, (pushTargetStep now pushCap g nt p st).trace = st.trace ++ t ∧
        hasMarkSendingEvent t = false) := by
  refine ⟨?_, ?_, ?_⟩
  · intro cur
    refine ⟨?_, ?_, ?_⟩
    · constructor
      · intro h
        rcases cur with _ | ⟨⟨s', c', sa'⟩⟩
        · simp [markNotificationSending] at h
        · simp only [markNotificationSending] at h
          split at h
          · rename_i hp
            exact ⟨⟨s', c', sa'⟩, rfl, hp⟩
          · simp at h
      · rintro ⟨r, rfl, hp⟩
        simp [markNotificationSending, hp]
    · rintro r rfl hp
      simp [markNotificationSending, hp]
    · rcases cur with _ | ⟨⟨s', c', sa'⟩⟩
      · simp [markNotificationSending]
      · simp only [markNotificationSending]
        split <;> simp
  · exact fun cap k email st h => emailSubscriberStep_trace_granted now cap k email st h
  · intro pushCap g nt p st
    by_cases hc : (applyAt st.ledger
        { gameId := g.id, subscriptionId := p.id, notificationType := nt }
        (tryRecordNotificationAtomically now)).fst
    · by_cases hok : sendPushNotification (pushCap p.fcmToken)
      · exact ⟨[NEvent.claim { gameId := g.id, subscriptionId := p.id, notificationType := nt } true,
          NEvent.pushAttempt p.fcmToken true,
          NEvent.markSentEv { gameId := g.id, subscriptionId := p.id, notificationType := nt }],
          by simp [pushTargetStep, hc, hok], by simp [hasMarkSendingEvent]⟩
      · simp only [Bool.not_eq_true] at hok
        exact ⟨[NEvent.claim { gameId := g.id, subscriptionId := p.id, notificationType := nt } true,
          NEvent.pushAttempt p.fcmToken false,
          NEvent.deleteRecordEv { gameId := g.id, subscriptionId := p.id, notificationType := nt },
          NEvent.deleteTarget p.fcmToken],
          by simp [pushTargetStep, hc, hok], by simp [hasMarkSendingEvent]⟩
    · simp only [Bool.not_eq_true] at hc
      exact ⟨[NEvent.claim { gameId := g.id, subscriptionId := p.id, notificationType := nt } false],
        by simp [pushTargetStep, hc], by simp [hasMarkSendingEvent]⟩

/-- Witness for C6: the pending -> sending transition at a concrete record, and
    the email-path trace shape for a concrete fresh claim. -/
theorem markSending_spec_and_call_sites_witness :
    markNotificationSending 7 (some ⟨NStatus.pending, 0, none⟩)
      = (true, some ⟨NStatus.sending, 7, none⟩) ∧
    (∃ b, (emailSubscriberStep 0 (fun _ => EmailResult.delivered)
        { gameId := "g1", subscriptionId := "s1", notificationType := "24hour" }
        "fan@example.com" (initPassState [] [])).trace =
      (initPassState [] []).trace ++
        NEvent.claim { gameId := "g1", subscriptionId := "s1", notificationType := "24hour" } true ::
        NEvent.markSendingEv { gameId := "g1", subscriptionId := "s1", notificationType := "24hour" } b ::
        NEvent.emailAttempt { gameId := "g1", subscriptionId := "s1", notificationType := "24hour" }
          EmailResult.delivered ::
        emailTailEvents EmailResult.delivered
          { gameId := "g1", subscriptionId := "s1", notificationType := "24hour" }) := by
  constructor
  · exact ((markSending_spec_and_call_sites 7).1 (some ⟨NStatus.pending, 0, none⟩)).2.1
      ⟨NStatus.pending, 0, none⟩ rfl rfl
  · exact (markSending_spec_and_call_sites 0).2.1 (fun _ => EmailResult.delivered)
      { gameId := "g1", subscriptionId := "s1", notificationType := "24hour" }
      "fan@example.com" (initPassState [] []) (by decide)

/- ----------------------------------------------------------------------------
   C7
---------------------------------------------------------------------------- -/

/-- C7 (amended): the push path deletes the push target from the registry
    whenever the delivery capability returns false -- which happens both for
    the permanent invalid-token error codes and for any transient error, since
    sendPushNotification collapses them all into false -- releasing the claim
    record at the same time; the target is kept only when delivery succeeds. -/
theorem push_failure_always_deletes_target (now : Int) (pushCap : String → PushOutcome)
    (g : Game) (nt : String) (p : PushTarget) (st : PassState)
    (hclaim : (tryRecordNotificationAtomically now (lookupRec st.ledger
      { gameId := g.id, subscriptionId := p.id, notificationType := nt })).fst = true) :
    (sendPushNotification (pushCap p.fcmToken) = false ↔
      pushCap p.fcmToken ≠ PushOutcome.delivered) ∧
    (sendPushNotification (pushCap p.fcmToken) = false →
      (pushTargetStep now pushCap g nt p st).registry =
        st.registry.filter (fun q => !(q.fcmToken == p.fcmToken)) ∧
      lookupRec (pushTargetStep now pushCap g nt p st).ledger
        { gameId := g.id, subscriptionId := p.id, notificationType := nt } = none ∧
      hasDeleteTargetFor (pushTargetStep now pushCap g nt p st).trace p.fcmToken = true) ∧
    (sendPushNotification (pushCap p.fcmToken) = true →
      (pushTargetStep now pushCap g nt p st).registry = st.registry) := by
  have hc : (applyAt st.ledger
      { gameId := g.id, subscriptionId := p.id, notificationType := nt }
      (tryRecordNotificationAtomically now)).fst = true := by
    rw [applyAt_fst]
    exact hclaim
  refine ⟨?_, ?_, ?_⟩
  · cases hpc : pushCap p.fcmToken <;> simp [sendPushNotification]
  · intro hokf
    refine ⟨?_, ?_, ?_⟩ <;>
      simp [pushTargetStep, hc, hokf, lookup_applyAt_self, deleteRecord_snd,
        hasDeleteTargetFor]
  · intro hok
    simp [pushTargetStep, hc, hok]

/-- Witness for C7: a transient (otherError) failure on a fresh claim removes
    the only registered target and releases the claim. -/
theorem push_failure_always_deletes_target_witness :
    (sendPushNotification PushOutcome.otherError = false ↔
      PushOutcome.otherError ≠ PushOutcome.delivered) ∧
    (pushTargetStep 0 (fun _ => PushOutcome.otherError) ⟨"g1", "Football", 93600000⟩
        "24hour-push" ⟨"p1", "tok1", ["Football"]⟩
        (initPassState [] [⟨"p1", "tok1", ["Football"]⟩])).registry = [] := by
  have h := push_failure_always_deletes_target 0 (fun _ => PushOutcome.otherError)
    ⟨"g1", "Football", 93600000⟩ "24hour-push" ⟨"p1", "tok1", ["Football"]⟩
    (initPassState [] [⟨"p1", "tok1", ["Football"]⟩]) (by decide)
  refine ⟨h.1, ?_⟩
  have h2 := (h.2.1 rfl).1
  simpa [initPassState] using h2

/- ----------------------------------------------------------------------------
   Concrete counterexample scenario: one 26-hours-away Football game, one email
   subscriber interested in no sports, one push target interested in Football.
---------------------------------------------------------------------------- -/

def cexGame : Game := { id := "g1", sport := "Football", dateTime := 93600000 }

def cexNoSportSub : Subscriber :=
  { id := "s2", email := "other@example.com", sports := [] }

def cexTarget : PushTarget := { id := "p1", fcmToken := "tok1", sports := ["Football"] }

def cexKeyPush : NKey :=
  { gameId := "g1", subscriptionId := "p1", notificationType := "24hour-push" }

theorem cexRunPushFail_eval :
    checkAndSendNotifications 0 [cexGame] [cexNoSportSub]
      (fun _ => EmailResult.delivered) (fun _ => PushOutcome.otherError) [] [cexTarget] =
    { ledger := [], registry := [], gamesIn24Hours := 1, gamesMorningOf := 0,
      emailsSent := 0, skippedDuplicates := 0, errors := [],
      trace := [NEvent.claim cexKeyPush true, NEvent.pushAttempt "tok1" false,
        NEvent.deleteRecordEv cexKeyPush, NEvent.deleteTarget "tok1"] } := by
  simp [checkAndSendNotifications, pushPhase, pushGame, pushTargetStep, emailPhase,
    emailGame, emailSubscriberStep, emailDeliver, initPassState, applyAt, lookupRec,
    writeRec, eraseRec, tryRecordNotificationAtomically, tryClaimExisting,
    markNotificationSending, markNotificationSent, deleteNotificationRecord,
    needs24_eq_ms, needsMorningNotification, isSameDay, dayStart, morningStart,
    morningEnd, msPerDay, msOfDay, sendPushNotification, cexGame, cexNoSportSub,
    cexTarget, cexKeyPush, condReclaimSending, condReclaimPending, staleMs]

theorem cexRunPushOk_eval :
    checkAndSendNotifications 0 [cexGame] [cexNoSportSub]
      (fun _ => EmailResult.delivered) (fun _ => PushOutcome.delivered) [] [cexTarget] =
    { ledger := [(cexKeyPush, { status := NStatus.sent, createdAt := 0, sentAt := some 0 })],
      registry := [cexTarget], gamesIn24Hours := 1, gamesMorningOf := 0,
      emailsSent := 1, skippedDuplicates := 0, errors := [],
      trace := [NEvent.claim cexKeyPush true, NEvent.pushAttempt "tok1" true,
        NEvent.markSentEv cexKeyPush] } := by
  simp [checkAndSendNotifications, pushPhase, pushGame, pushTargetStep, emailPhase,
    emailGame, emailSubscriberStep, emailDeliver, initPassState, applyAt, lookupRec,
    writeRec, eraseRec, tryRecordNotificationAtomically, tryClaimExisting,
    markNotificationSending, markNotificationSent, deleteNotificationRecord,
    needs24_eq_ms, needsMorningNotification, isSameDay, dayStart, morningStart,
    morningEnd, msPerDay, msOfDay, sendPushNotification, cexGame, cexNoSportSub,
    cexTarget, cexKeyPush, condReclaimSending, condReclaimPending, staleMs]

/-- C3 counterexample: in the push path a delivery failure after a granted
    claim deletes the record but records nothing in the pass error list, so
    the claim as stated (over every kind) fails for push kinds. -/
theorem push_failure_not_logged_cex :
    (checkAndSendNotifications 0 [cexGame] [cexNoSportSub]
      (fun _ => EmailResult.delivered) (fun _ => PushOutcome.otherError) []
      [cexTarget]).errors = [] ∧
    (checkAndSendNotifications 0 [cexGame] [cexNoSportSub]
      (fun _ => EmailResult.delivered) (fun _ => PushOutcome.otherError) []
      [cexTarget]).trace =
      [NEvent.claim cexKeyPush true, NEvent.pushAttempt "tok1" false,
        NEvent.deleteRecordEv cexKeyPush, NEvent.deleteTarget "tok1"] := by
  rw [cexRunPushFail_eval]
  exact ⟨rfl, rfl⟩

/-- C6 counterexample: a pass whose push path delivers successfully never
    emits a markSending call, refuting "markSending is invoked in every
    delivery path". -/
theorem push_path_skips_markSending_cex :
    hasPushAttemptFor (checkAndSendNotifications 0 [cexGame] [cexNoSportSub]
      (fun _ => EmailResult.delivered) (fun _ => PushOutcome.delivered) []
      [cexTarget]).trace "tok1" = true ∧
    hasMarkSendingEvent (checkAndSendNotifications 0 [cexGame] [cexNoSportSub]
      (fun _ => EmailResult.delivered) (fun _ => PushOutcome.delivered) []
      [cexTarget]).trace = false := by
  rw [cexRunPushOk_eval]
  exact ⟨rfl, rfl⟩

/-- C7 counterexample: a transient push error (otherError, not one of the
    permanent invalid-token codes) still deletes the push target from the
    registry, refuting "a merely transient push failure does not delete the
    push target". -/
theorem transient_push_failure_deletes_target_cex :
    PushOutcome.otherError ≠ PushOutcome.tokenNotRegistered ∧
    PushOutcome.otherError ≠ PushOutcome.tokenInvalid ∧
    (checkAndSendNotifications 0 [cexGame] [cexNoSportSub]
      (fun _ => EmailResult.delivered) (fun _ => PushOutcome.otherError) []
      [cexTarget]).registry = [] ∧
    hasDeleteTargetFor (checkAndSendNotifications 0 [cexGame] [cexNoSportSub]
      (fun _ => EmailResult.delivered) (fun _ => PushOutcome.otherError) []
      [cexTarget]).trace "tok1" = true := by
  refine ⟨by decide, by decide, ?_, ?_⟩ <;> rw [cexRunPushFail_eval] <;> rfl

/-- C9 counterexample: with an empty email subscriber list the pass returns
    immediately, so an eligible game with an interested push target produces
    no push attempt at all. -/
theorem empty_subs_suppress_push_cex :
    needs24HourNotification cexGame.dateTime 0 = true ∧
    cexTarget.sports.contains cexGame.sport = true ∧
    checkAndSendNotifications 0 [cexGame] [] (fun _ => EmailResult.delivered)
      (fun _ => PushOutcome.delivered) [] [cexTarget] = initPassState [] [cexTarget] ∧
    hasPushAttemptFor (checkAndSendNotifications 0 [cexGame] []
      (fun _ => EmailResult.delivered) (fun _ => PushOutcome.delivered) []
      [cexTarget]).trace "tok1" = false := by
  refine ⟨?_, by decide, rfl, rfl⟩
  rw [needs24_eq_ms]
  decide

/- ----------------------------------------------------------------------------
   C9
---------------------------------------------------------------------------- -/

/-- C9 (amended): provided the email subscriber collection is non-empty, push
    delivery is attempted independently of its contents: in every pass with a
    game inside a notification window, an interested push target with distinct
    ids and a free claim slot, a push delivery attempt for that target occurs
    (an empty email subscriber list instead aborts the pass before any push
    processing). -/
theorem push_attempted_when_subs_nonempty (now : Int) (games : List Game)
    (subs : List Subscriber) (emailCap : NKey → EmailResult)
    (pushCap : String → PushOutcome) (ledger0 : Ledger) (registry0 : List PushTarget)
    (g : Game) (p : PushTarget)
    (hsubs : subs ≠ [])
    (hg : g ∈ games)
    (hguniq : ∀ g' ∈ games, g'.id = g.id → g' = g)
    (hp : p ∈ registry0)
    (hpuniq : ∀ q ∈ registry0, q.id = p.id → q = p)
    (hsport : p.sports.contains g.sport = true)
    (helig : needs24HourNotification g.dateTime now = true ∨
      needsMorningNotification g.dateTime now = true)
    (hfree : lookupRec ledger0
      { gameId := g.id, subscriptionId := p.id,
        notificationType := if needs24HourNotification g.dateTime now
          then "24hour-push" else "gameday-push" } = none) :
    hasPushAttemptFor
      (checkAndSendNotifications now games subs emailCap pushCap ledger0 registry0).trace
      p.fcmToken = true := by
  have hne : subs.isEmpty = false := by
    cases subs with
    | nil => exact absurd rfl hsubs
    | cons a l => rfl
  have hrne : registry0.isEmpty = false := by
    cases registry0 with
    | nil => simp at hp
    | cons a l => rfl
  have hkind24 : (if needs24HourNotification g.dateTime now
      then "24hour-push" else ("gameday-push" : String)) ≠ "24hour" := by
    rcases Bool.eq_false_or_eq_true (needs24HourNotification g.dateTime now) with h | h <;>
      rw [h] <;> decide
  have hkindgd : (if needs24HourNotification g.dateTime now
      then "24hour-push" else ("gameday-push" : String)) ≠ "gameday" := by
    rcases Bool.eq_false_or_eq_true (needs24HourNotification g.dateTime now) with h | h <;>
      rw [h] <;> decide
  have hreg : (emailPhase now emailCap subs games
      (initPassState ledger0 registry0)).registry = registry0 :=
    emailPhase_registry now emailCap subs games (initPassState ledger0 registry0)
  have hled : lookupRec (emailPhase now emailCap subs games
      (initPassState ledger0 registry0)).ledger
      { gameId := g.id, subscriptionId := p.id,
        notificationType := if needs24HourNotification g.dateTime now
          then "24hour-push" else "gameday-push" } = none := by
    rw [emailPhase_ledger_push_kinds now emailCap subs games
      (initPassState ledger0 registry0) _ hkind24 hkindgd]
    exact hfree
  simp only [checkAndSendNotifications, hne, Bool.false_eq_true, reduceIte]
  simp only [pushPhase, hreg, hrne, Bool.false_eq_true, reduceIte]
  exact foldGames_attempts now pushCap registry0 p g helig hp hsport hpuniq
    games (emailPhase now emailCap subs games (initPassState ledger0 registry0))
    hg hguniq hled

/-- Witness for C9 at a concrete input: with one interested email subscriber
    present, the eligible game's push target receives a delivery attempt. -/
theorem push_attempted_when_subs_nonempty_witness :
    hasPushAttemptFor (checkAndSendNotifications 0 [cexGame]
      [{ id := "s1", email := "fan@example.com", sports := ["Football"] }]
      (fun _ => EmailResult.delivered) (fun _ => PushOutcome.delivered) []
      [cexTarget]).trace "tok1" = true := by
  exact push_attempted_when_subs_nonempty 0 [cexGame]
    [{ id := "s1", email := "fan@example.com", sports := ["Football"] }]
    (fun _ => EmailResult.delivered) (fun _ => PushOutcome.delivered) [] [cexTarget]
    cexGame cexTarget (by decide) (by decide) (by decide) (by decide) (by decide)
    (by decide) (Or.inl (by rw [needs24_eq_ms]; decide)) rfl

end ChsLakers
